/-
  Verification of the vantage-backend core against its specification.

  Shallow embedding of the TypeScript source:
  - src/workers/etl/XmlDataSourceAdapter.ts  (adapter normalization, date parsing)
  - src/workers/etl/batchProcessor.ts        (batch writer: flush, retry, chunking, buffer)
  - src/infrastructure/repositories/PostgresBusinessRepository.ts (bulk writes, search paths)
  - src/interfaces/http/middleware/errorHandler.ts and shared/errors/AppError.ts
  - src/interfaces/http/controllers/BusinessController.ts (response envelope)
  - src/workers/etl/etlWorker.ts             (streaming parser backpressure)

  JavaScript strings are modelled as Lean String, JS arrays as List, nullable
  values as Option, JS numbers in the relevant integer ranges as Nat, fallible
  operations as Except.
-/
import Mathlib

set_option maxHeartbeats 1000000

/-! ## Shared string helpers

JS Array.prototype.join with a separator. -/

def joinSep (sep : String) : List String → String
  | [] => ""
  | [x] => x
  | x :: y :: xs => x ++ sep ++ joinSep sep (y :: xs)

/-- JS truthiness filter over an array of string-or-null entries:
[a, b].filter(Boolean) keeps entries that are neither null nor the empty string. -/
def truthyStrings (l : List (Option String)) : List String :=
  (l.filterMap id).filter (fun s => ¬ s = "")

/-! ## Domain entities (src/domain/entities)

Business as produced by the adapter (no surrogate id yet); BusinessName is the
child record carried on the entity. Date-valued fields hold the result of the
adapter's date parser. -/

/-- Result of the JS expression new Date of a string built from year, month and
day components: a valid calendar date, or the JS Invalid Date object (which is
a non-null Date value whose time is NaN). -/
inductive JsDate where
  | invalid : JsDate
  | valid (year month day : Nat) : JsDate
deriving DecidableEq, Repr

structure BusinessName where
  nameType : String
  nameText : String
deriving DecidableEq, Repr

structure Business where
  abn : String
  abnStatus : String
  abnStatusFrom : Option JsDate
  entityTypeCode : String
  entityTypeText : String
  entityName : String
  givenName : Option String
  familyName : Option String
  state : Option String
  postcode : Option String
  gstStatus : Option String
  gstFromDate : Option JsDate
  acn : Option String
  recordLastUpdated : Option JsDate
  businessNames : List BusinessName
deriving DecidableEq, Repr

/-! ## XmlDataSourceAdapter (src/workers/etl/XmlDataSourceAdapter.ts) -/

/-- Alternate-name entry of the raw record (the otherNames array elements,
fields named type and text in the source). -/
structure OtherName where
  ntype : String
  ntext : String
deriving DecidableEq, Repr

/-- RawAbrRecord: the bucket the SAX parser fills per ABR block. -/
structure RawAbrRecord where
  recordLastUpdatedDate : String
  abn : String
  abnStatus : String
  abnStatusFromDate : String
  entityTypeInd : String
  entityTypeText : String
  mainEntityName : Option String
  givenNames : List String
  familyName : Option String
  state : Option String
  postcode : Option String
  gstStatus : Option String
  gstFromDate : Option String
  acn : Option String
  otherNames : List OtherName
deriving DecidableEq, Repr

/-- Gregorian leap year test, as used by JS Date validation. -/
def isLeapYear (y : Nat) : Bool := (y % 4 = 0 && ¬ y % 100 = 0) || y % 400 = 0

/-- Days in a Gregorian month. -/
def daysInMonth (y m : Nat) : Nat :=
  if m = 2 then (if isLeapYear y then 29 else 28)
  else if m = 4 ∨ m = 6 ∨ m = 9 ∨ m = 11 then 30 else 31

/-- Numeric value of a non-empty all-digit character list; none otherwise.
Models how the JS Date string parser reads a digit component. -/
def digitsVal? (cs : List Char) : Option Nat :=
  if ¬ cs = [] ∧ cs.all Char.isDigit then
    some (cs.foldl (fun acc c => 10 * acc + (c.toNat - 48)) 0)
  else none

/-- Model of the JS expression new Date(yyyy-mm-dd) applied to the three sliced
components: a JsDate.valid when every component is all digits and the
month/day are in calendar range (leap years included), the JS Invalid Date
otherwise. Either way the JS value is non-null. -/
def jsDateFromParts (ys ms ds : String) : JsDate :=
  match digitsVal? ys.data, digitsVal? ms.data, digitsVal? ds.data with
  | some y, some m, some d =>
      if 1 ≤ m ∧ m ≤ 12 ∧ 1 ≤ d ∧ d ≤ daysInMonth y m then JsDate.valid y m d
      else JsDate.invalid
  | _, _, _ => JsDate.invalid

/-- JS String.prototype.slice(a, b) on the character list. -/
def strSlice (v : String) (a b : Nat) : String := String.mk ((v.data.drop a).take (b - a))

/-- parseAbrDate from XmlDataSourceAdapter.ts: null/empty input, a length
other than 8, or the sentinel 19000101 give null; otherwise the string is
sliced into year/month/day and handed to the Date constructor. -/
def parseAbrDate (value : Option String) : Option JsDate :=
  match value with
  | none => none
  | some v =>
    if v = "" ∨ ¬ v.length = 8 ∨ v = "19000101" then none
    else some (jsDateFromParts (strSlice v 0 4) (strSlice v 4 6) (strSlice v 6 8))

/-- normalize from XmlDataSourceAdapter.ts. IND records join the given names
with single spaces (empty join collapsing to null via the JS or-null idiom)
and build entityName from the truthy parts; non-IND records take the main
entity name with the JS or-else literal Unknown Entity. -/
def XmlDataSourceAdapter.normalize (raw : RawAbrRecord) : Business :=
  let isIndividual := raw.entityTypeInd = "IND"
  let joined := joinSep (" ") raw.givenNames
  let givenName : Option String :=
    if isIndividual then (if joined = "" then none else some joined) else none
  let familyName : Option String := if isIndividual then raw.familyName else none
  let entityName : String :=
    if isIndividual then joinSep (" ") (truthyStrings [givenName, familyName])
    else
      match raw.mainEntityName with
      | some s => if s = "" then "Unknown Entity" else s
      | none => "Unknown Entity"
  { abn := raw.abn
    abnStatus := raw.abnStatus
    abnStatusFrom := parseAbrDate (some raw.abnStatusFromDate)
    entityTypeCode := raw.entityTypeInd
    entityTypeText := raw.entityTypeText
    entityName := entityName
    givenName := givenName
    familyName := familyName
    state := raw.state
    postcode := raw.postcode
    gstStatus := raw.gstStatus
    gstFromDate := parseAbrDate raw.gstFromDate
    acn := raw.acn
    recordLastUpdated := parseAbrDate (some raw.recordLastUpdatedDate)
    businessNames := raw.otherNames.map (fun n => { nameType := n.ntype, nameText := n.ntext }) }

/-! ## Batch processor (src/workers/etl/batchProcessor.ts) -/

/-- A businesses-table row as bound by the bulk INSERT: the 14 written columns
of toBusinessRow (the surrogate id and timestamps are store-assigned). -/
structure BusinessRow where
  abn : String
  abn_status : String
  abn_status_from : Option JsDate
  entity_type_code : String
  entity_type_text : String
  entity_name : String
  given_name : Option String
  family_name : Option String
  state : Option String
  postcode : Option String
  gst_status : Option String
  gst_from_date : Option JsDate
  acn : Option String
  record_last_updated : Option JsDate
deriving DecidableEq, Repr

/-- toBusinessRow from batchProcessor.ts: camelCase entity to snake_case row. -/
def toBusinessRow (entity : Business) : BusinessRow :=
  { abn := entity.abn
    abn_status := entity.abnStatus
    abn_status_from := entity.abnStatusFrom
    entity_type_code := entity.entityTypeCode
    entity_type_text := entity.entityTypeText
    entity_name := entity.entityName
    given_name := entity.givenName
    family_name := entity.familyName
    state := entity.state
    postcode := entity.postcode
    gst_status := entity.gstStatus
    gst_from_date := entity.gstFromDate
    acn := entity.acn
    record_last_updated := entity.recordLastUpdated }

/-- A business_names-table row (3 bound columns). -/
structure NameRow where
  business_id : Nat
  name_type : String
  name_text : String
deriving DecidableEq, Repr

/-- PostgreSQL max bind parameters per statement (wire protocol). -/
def PG_MAX_BIND_PARAMS : Nat := 65535

/-- Businesses table column count bound per row. -/
def BUSINESS_COLS : Nat := 14

/-- Absolute max rows per businesses INSERT by the parameter limit. -/
def MAX_BUSINESS_ROWS_BY_PARAMS : Nat := (PG_MAX_BIND_PARAMS - 1) / BUSINESS_COLS

/-- The writer's actual chunk size for businesses INSERTs. -/
def MAX_BUSINESS_ROWS_PER_INSERT : Nat := min 1000 MAX_BUSINESS_ROWS_BY_PARAMS

/-- The writer's chunk size for business_names INSERTs (3 columns per row). -/
def MAX_NAME_ROWS_PER_INSERT : Nat := (PG_MAX_BIND_PARAMS - 1) / 3

/-- The successive slices the for-loops of doFlushWithTrx take: slice(i, i+n)
for i = 0, n, 2n, ... Fuel-indexed so the recursion is structural; the fuel is
instantiated with the list length, which suffices whenever n is at least 1. -/
def chunksOfAux (n : Nat) : Nat → List α → List (List α)
  | 0, _ => []
  | _, [] => []
  | fuel + 1, l => l.take n :: chunksOfAux n fuel (l.drop n)

def chunksOf (n : Nat) (l : List α) : List (List α) := chunksOfAux n l.length l

/-- Bound parameter count of each businesses INSERT statement issued by the
Batch Writer's doFlushWithTrx for a batch of business rows. -/
def writerBusinessStmtParams (rows : List BusinessRow) : List Nat :=
  (chunksOf MAX_BUSINESS_ROWS_PER_INSERT rows).map (fun c => c.length * BUSINESS_COLS)

/-- Bound parameter count of each business_names INSERT statement issued by
the Batch Writer's doFlushWithTrx. -/
def writerNameStmtParams (rows : List NameRow) : List Nat :=
  (chunksOf MAX_NAME_ROWS_PER_INSERT rows).map (fun c => c.length * 3)

/-- Bound parameter count of each INSERT statement issued by
PostgresBusinessRepository.bulkUpsert: empty input is a no-op, any other input
is sent as ONE unchunked multi-row INSERT (no sub-batching in the source). -/
def repoBulkUpsertStmtParams (rows : List BusinessRow) : List Nat :=
  if rows.length = 0 then [] else [rows.length * BUSINESS_COLS]

/-- Bound parameter count of each INSERT statement issued by
PostgresBusinessRepository.bulkInsertNames: one unchunked statement. -/
def repoBulkInsertNamesStmtParams (rows : List NameRow) : List Nat :=
  if rows.length = 0 then [] else [rows.length * 3]

/-! ### Flush transaction semantics (doFlushWithTrx) -/

/-- In-model relational store: the businesses table (surrogate id plus the 14
written columns), the business_names table, and the id sequence. -/
structure DbBusiness where
  id : Nat
  row : BusinessRow
deriving DecidableEq, Repr

structure DbState where
  businesses : List DbBusiness
  names : List NameRow
  nextId : Nat
deriving DecidableEq, Repr

def emptyDb : DbState := { businesses := [], names := [], nextId := 1 }

/-- INSERT .. ON CONFLICT (abn) DO UPDATE for one row: if a business with the
same abn exists, all written columns are replaced and the id kept; otherwise a
fresh row is inserted with the next surrogate id. The writer's chunked
multi-row upserts apply rows in order, which this row-wise fold models. -/
def mergeOnConflict (r : BusinessRow) (b : DbBusiness) : DbBusiness :=
  if b.row.abn = r.abn then { b with row := r } else b

def upsertRow (st : DbState) (r : BusinessRow) : DbState :=
  if st.businesses.any (fun b => decide (b.row.abn = r.abn)) then
    { st with businesses := st.businesses.map (mergeOnConflict r) }
  else
    let fresh : DbBusiness := { id := st.nextId, row := r }
    { st with businesses := st.businesses ++ [fresh], nextId := st.nextId + 1 }

/-- One collected child-name entry (abn plus name fields), as accumulated into
allNames by the loop in doFlushWithTrx. The guard on a non-empty businessNames
array in the source only skips empty lists and is absorbed by the flatten. -/
structure AbnName where
  abn : String
  nameType : String
  nameText : String
deriving DecidableEq, Repr

def collectNames (batch : List Business) : List AbnName :=
  batch.flatMap (fun e => e.businessNames.map
    (fun bn => { abn := e.abn, nameType := bn.nameType, nameText := bn.nameText }))

/-- JS new Set(xs) iteration order: first occurrence of each element. -/
def dedupFirstAux : List String → List String → List String
  | [], _ => []
  | x :: xs, seen =>
    if seen.contains x then dedupFirstAux xs seen else x :: dedupFirstAux xs (x :: seen)

def dedupFirst (l : List String) : List String := dedupFirstAux l []

/-- doFlushWithTrx from batchProcessor.ts, as a transformation of the store
state: upsert the batch keyed by abn, then, when the batch carries any child
names, resolve ids for the abns that have names, delete every business_names
row owned by those ids, and insert the fresh rows (entries whose abn did not
resolve are dropped). Chunk boundaries do not change the resulting state, so
the upsert is modelled row-wise. -/
def doFlushWithTrx (st : DbState) (batch : List Business) : DbState :=
  let st1 := (batch.map toBusinessRow).foldl upsertRow st
  let allNames := collectNames batch
  if allNames = [] then st1
  else
    let abns := dedupFirst (allNames.map (fun n => n.abn))
    let idPairs := (st1.businesses.filter (fun b => decide (b.row.abn ∈ abns))).map
        (fun b => (b.row.abn, b.id))
    let businessIds := idPairs.map (fun p => p.2)
    let afterDelete := st1.names.filter (fun n => ! businessIds.contains n.business_id)
    let nameRows := allNames.filterMap (fun n =>
      (idPairs.find? (fun p => decide (p.1 = n.abn))).map
        (fun p => ({ business_id := p.2, name_type := n.nameType, name_text := n.nameText } : NameRow)))
    { st1 with names := afterDelete ++ nameRows }

/-- The business_names rows attached to the business with the given abn. -/
def namesAttachedTo (st : DbState) (abn : String) : List NameRow :=
  match st.businesses.find? (fun b => decide (b.row.abn = abn)) with
  | none => []
  | some b => st.names.filter (fun n => decide (n.business_id = b.id))

/-! ### Buffering and backpressure (add / flush) -/

/-- The effect of one awaited add() call on the in-memory buffer: push the
entity; when the buffer has reached batchSize, flush drains it completely
(splice(0)) before add resolves. The parser awaits add() with the byte stream
paused, so adds are strictly sequential. -/
def addStep (batchSize : Nat) (buf : List Business) (e : Business) : List Business :=
  let b := buf ++ [e]
  if batchSize ≤ b.length then [] else b

/-- Buffer contents after a sequence of records has been added. -/
def bufferAfter (batchSize : Nat) (events : List Business) : List Business :=
  events.foldl (addStep batchSize) []

/-! ### Retry policy (runOneFlush / isRetryableConnectionError) -/

/-- The fields of a JS error value that isRetryableConnectionError inspects:
the optional OS/store error code and the message. -/
structure JsErrorInfo where
  code : Option String
  message : String
deriving DecidableEq, Repr

/-- Case-folded character list of a string, for the case-insensitive regexes. -/
def lowerChars (s : String) : List Char := s.data.map Char.toLower

/-- JS String.prototype.trim, modelled on the character list (the core
library's trim does not reduce in the kernel, so it is re-expressed here with
the same semantics: strip leading and trailing whitespace). -/
def jsTrim (s : String) : String :=
  String.mk (((s.data.dropWhile Char.isWhitespace).reverse.dropWhile Char.isWhitespace).reverse)

/-- Contiguous-sublist (substring) test on character lists. -/
def listInfixOf (pat : List Char) : List Char → Bool
  | [] => decide (pat = [])
  | c :: tail => pat.isPrefixOf (c :: tail) || listInfixOf pat tail

/-- Match of the regex fragment a.*b (a, then anything, then b) against a
character list: some occurrence of a is followed, anywhere later, by b. -/
def containsThen (a b : List Char) : List Char → Bool
  | [] => a.isPrefixOf ([] : List Char) && listInfixOf b []
  | c :: tail =>
    (a.isPrefixOf (c :: tail) && listInfixOf b ((c :: tail).drop a.length))
      || containsThen a b tail

/-- isRetryableConnectionError from batchProcessor.ts: the four OS error
codes, the admin-shutdown store code, the connection-message regex
(connection terminated | terminated unexpectedly | connection closed |
connection.*reset, case-insensitive), and the pool-timeout regex
(timeout acquiring a connection | pool is probably full). -/
def isRetryableConnectionError (e : JsErrorInfo) : Bool :=
  let codeOk :=
    decide (e.code = some ("ECONNRESET")) || decide (e.code = some ("EPIPE"))
      || decide (e.code = some ("ETIMEDOUT")) || decide (e.code = some ("ECONNREFUSED"))
      || decide (e.code = some ("57P01"))
  let m := lowerChars e.message
  let msgOk :=
    listInfixOf ("connection terminated".data) m
      || listInfixOf ("terminated unexpectedly".data) m
      || listInfixOf ("connection closed".data) m
      || containsThen ("connection".data) ("reset".data) m
  let poolOk :=
    listInfixOf ("timeout acquiring a connection".data) m
      || listInfixOf ("pool is probably full".data) m
  codeOk || msgOk || poolOk

/-- Outcome of executing the flush transaction once. -/
inductive FlushOutcome where
  | success : FlushOutcome
  | failure (e : JsErrorInfo) : FlushOutcome
deriving DecidableEq, Repr

/-- Result of runOneFlush: committed at some attempt (with the backoff delays
slept so far), an error propagated at some attempt, or the loop body never ran
(only possible when retryAttempts = 0). -/
inductive FlushResult where
  | ok (attempt : Nat) (delays : List Nat)
  | thrown (e : JsErrorInfo) (attempt : Nat) (delays : List Nat)
  | skipped
deriving DecidableEq, Repr

/-- The attempt loop of runOneFlush. outcome gives each attempt's result;
remaining counts the attempts the for-loop still allows (initially
retryAttempts, so remaining = 0 inside the loop marks the last attempt, where
the source rethrows because attempt = retryAttempts). On a retryable failure
with attempts left, the loop sleeps retryDelayMs * 2 ^ (attempt - 1) and
re-runs the whole batch. -/
def flushLoop (outcome : Nat → FlushOutcome) (retryDelayMs : Nat) :
    Nat → Nat → List Nat → FlushResult
  | _, 0, _ => FlushResult.skipped
  | attempt, r + 1, delays =>
    match outcome attempt with
    | FlushOutcome.success => FlushResult.ok attempt delays
    | FlushOutcome.failure e =>
      if isRetryableConnectionError e = false ∨ r = 0 then
        FlushResult.thrown e attempt delays
      else
        flushLoop outcome retryDelayMs (attempt + 1) r
          (delays ++ [retryDelayMs * 2 ^ (attempt - 1)])

/-- runOneFlush from batchProcessor.ts, as a function of the per-attempt
transaction outcomes and the retry options. -/
def runOneFlush (outcome : Nat → FlushOutcome) (retryAttempts retryDelayMs : Nat) : FlushResult :=
  flushLoop outcome retryDelayMs 1 retryAttempts []

/-- DEFAULT_ETL_OPTIONS from batchProcessor.ts. -/
structure EtlOptions where
  retryAttempts : Nat
  retryDelayMs : Nat
  flushDelayMs : Nat
  poolIdleTimeoutMs : Nat
deriving DecidableEq, Repr

def DEFAULT_ETL_OPTIONS : EtlOptions :=
  { retryAttempts := 3, retryDelayMs := 1000, flushDelayMs := 200, poolIdleTimeoutMs := 240000 }

/-! ## Repository search paths (src/infrastructure/repositories/PostgresBusinessRepository.ts) -/

/-- SearchQuery as consumed by the repository (shared/types.ts), restricted to
the fields the repository reads. -/
structure SearchQuery where
  term : Option String
  state : Option String
  postcode : Option String
  entityType : Option String
  abnStatus : Option String
  page : Nat
  limit : Nat
deriving DecidableEq, Repr

/-- Timing metadata of a response (shared/types.ts SearchResultMeta); each
field is optional, mirroring the optional JS properties. -/
structure SearchMeta where
  queryTimeMs : Option Nat
  totalTimeMs : Option Nat
deriving DecidableEq, Repr

structure Pagination where
  page : Nat
  limit : Nat
  total : Nat
  totalPages : Nat
deriving DecidableEq, Repr

/-- PaginatedResult as built by the repository. The meta field mirrors the
optional meta property of the shared type. -/
structure PaginatedResult where
  data : List DbBusiness
  pagination : Pagination
  meta : Option SearchMeta
deriving DecidableEq, Repr

/-- One optional equality filter of applyFilters: a JS-falsy filter value
(absent or empty string) applies no predicate; otherwise the column must
equal it. -/
def optFilterMatch (f : Option String) (v : Option String) : Bool :=
  match f with
  | none => true
  | some s => if s = "" then true else decide (v = some s)

/-- applyFilters from the repository: state, postcode, entity_type_code and
abn_status equality predicates (the latter two columns are non-null). -/
def applyFilters (q : SearchQuery) (b : DbBusiness) : Bool :=
  optFilterMatch q.state b.row.state && optFilterMatch q.postcode b.row.postcode
    && optFilterMatch q.entityType (some b.row.entity_type_code)
    && optFilterMatch q.abnStatus (some b.row.abn_status)

/-- Case-insensitive substring test: the semantics of the native path's
entity_name ILIKE pattern, where escapeLike has made the percent-wrapped term
match literally. -/
def ilikeContains (term s : String) : Bool :=
  listInfixOf (lowerChars term) (lowerChars s)

/-- escapeLike from the repository: backslash-escape the LIKE wildcards. -/
def escapeLike (term : String) : String :=
  String.mk (term.data.flatMap (fun c =>
    if c = '\\' then ['\\', '\\']
    else if c = '%' then ['\\', '%']
    else if c = '_' then ['\\', '_'] else [c]))

/-- The base predicate of buildSearchQuery: when a non-empty trimmed term is
present, entity_name ILIKE the escaped pattern; always the optional filters. -/
def buildSearchQueryPred (trimmedTerm : Option String) (q : SearchQuery) (b : DbBusiness) : Bool :=
  (match trimmedTerm with
   | some t => if ¬ t = "" then ilikeContains t b.row.entity_name else true
   | none => true) && applyFilters q b

/-- ORDER BY entity_name ASC. Ties keep table order (the spec's
insertion-order tie-break); insertion sort is stable. -/
def entityNameLe (a b : DbBusiness) : Prop := a.row.entity_name ≤ b.row.entity_name

instance : DecidableRel entityNameLe :=
  fun a b => inferInstanceAs (Decidable (a.row.entity_name ≤ b.row.entity_name))

def sortByEntityName (rows : List DbBusiness) : List DbBusiness :=
  List.insertionSort entityNameLe rows

/-- JS Math.ceil(total / limit) for natural inputs with limit at least 1. -/
def jsCeilDiv (total limit : Nat) : Nat := (total + limit - 1) / limit

/-- runPaginatedSearch from the repository: the capped count is the size of
the candidate set limited to maxCandidates (SELECT count over the ordered,
limited subquery), the page is the ordered slice LIMIT limit OFFSET
(page-1)*limit, and the result carries data and pagination only — the source
returns no meta on this path. -/
def runPaginatedSearch (pred : DbBusiness → Bool) (rows : List DbBusiness)
    (q : SearchQuery) (maxCandidates : Nat) : PaginatedResult :=
  let offset := (q.page - 1) * q.limit
  let sorted := sortByEntityName (rows.filter pred)
  let total := (sorted.take maxCandidates).length
  { data := (sorted.drop offset).take q.limit
    pagination :=
      { page := q.page, limit := q.limit, total := total, totalPages := jsCeilDiv total q.limit }
    meta := none }

/-- findWithFilters: the same envelope with no text predicate. -/
def findWithFilters (rows : List DbBusiness) (q : SearchQuery) (maxCandidates : Nat) :
    PaginatedResult :=
  runPaginatedSearch (buildSearchQueryPred none q) rows q maxCandidates

/-- searchNative: a JS-falsy or whitespace-only term degenerates to
findWithFilters; otherwise the ILIKE base predicate is paginated. -/
def searchNative (rows : List DbBusiness) (q : SearchQuery) (maxCandidates : Nat) :
    PaginatedResult :=
  match q.term with
  | none => findWithFilters rows q maxCandidates
  | some t =>
    if t = "" then findWithFilters rows q maxCandidates
    else
      let trimmedTerm := jsTrim t
      if trimmedTerm.length = 0 then findWithFilters rows q maxCandidates
      else runPaginatedSearch (buildSearchQueryPred (some trimmedTerm) q) rows q maxCandidates

/-! ### Token query construction (buildTsQuery) and the store's tsquery grammar -/

/-- JS String.prototype.split on the whitespace regex, with empty pieces
dropped (the filter(Boolean) of the source). -/
def splitWsAux : List Char → List Char → List String
  | [], acc => if acc = [] then [] else [String.mk acc.reverse]
  | c :: cs, acc =>
    if c.isWhitespace then
      (if acc = [] then splitWsAux cs [] else String.mk acc.reverse :: splitWsAux cs [])
    else splitWsAux cs (c :: acc)

def splitWs (s : String) : List String := splitWsAux s.data []

/-- Walk the word list keeping the last word apart: every word is used
verbatim, the final word gets the prefix-match marker appended. -/
def tsWords : String → List String → List String
  | last, [] => [last ++ ":*"]
  | w, x :: xs => w :: tsWords x xs

/-- buildTsQuery from the repository: split the trimmed term on whitespace,
suffix the last token, join conjunctively. Tokens are embedded verbatim —
no escaping or quoting of tsquery syntax characters. -/
def buildTsQuery (term : String) : String :=
  match splitWs (jsTrim term) with
  | [] => ""
  | w :: ws => joinSep (" & ") (tsWords w ws)

/-! Model of PostgreSQL's to_tsquery input syntax (the external store's
grammar): a boolean expression over lexemes with the operators and-sign,
or-sign, negation, parentheses and the followed-by operator, where lexemes
may be quoted and may carry weight/star flags after a colon. A string the
grammar rejects makes to_tsquery raise a syntax error, which surfaces as a
rejected query. -/

inductive TsTok where
  | tand | tor | tnot | lp | rp | dist | lexeme
deriving DecidableEq, Repr

/-- Characters that may appear in an unquoted lexeme. -/
def tsLexChar (c : Char) : Bool :=
  ¬ (c.isWhitespace || c = '&' || c = '|' || c = '!' || c = '(' || c = ')'
      || c = ':' || c = '\'' || c = '<' || c = '>')

/-- Quoted lexeme body after the opening quote: at least one character, then
the closing quote; unterminated or empty quoting is a syntax error. -/
def takeQuotedRest : List Char → Option (List Char)
  | [] => none
  | c :: cs => if c = '\'' then some cs else takeQuotedRest cs

def takeQuoted : List Char → Option (List Char)
  | [] => none
  | c :: cs => if c = '\'' then none else takeQuotedRest cs

/-- The followed-by operator after its opening angle: dash-close or a digit
distance and close. -/
def takeDist : List Char → Option (List Char)
  | '-' :: '>' :: rest => some rest
  | cs =>
    let p := cs.span Char.isDigit
    match p.1, p.2 with
    | _ :: _, '>' :: rest2 => some rest2
    | _, _ => none

def isFlagChar (c : Char) : Bool :=
  c = '*' || c = 'a' || c = 'b' || c = 'c' || c = 'd'
    || c = 'A' || c = 'B' || c = 'C' || c = 'D'

/-- After a word: an optional colon must be followed by at least one flag. -/
def wordRest (cs : List Char) : Option (List Char) :=
  let p := cs.span tsLexChar
  match p.2 with
  | ':' :: rest2 =>
    let q := rest2.span isFlagChar
    if q.1 = [] then none else some q.2
  | _ => some p.2

def tsTokenizeAux : Nat → List Char → Option (List TsTok)
  | _, [] => some []
  | 0, _ :: _ => none
  | fuel + 1, c :: cs =>
    if c.isWhitespace then tsTokenizeAux fuel cs
    else if c = '&' then (tsTokenizeAux fuel cs).map (fun ts => TsTok.tand :: ts)
    else if c = '|' then (tsTokenizeAux fuel cs).map (fun ts => TsTok.tor :: ts)
    else if c = '!' then (tsTokenizeAux fuel cs).map (fun ts => TsTok.tnot :: ts)
    else if c = '(' then (tsTokenizeAux fuel cs).map (fun ts => TsTok.lp :: ts)
    else if c = ')' then (tsTokenizeAux fuel cs).map (fun ts => TsTok.rp :: ts)
    else if c = '\'' then
      match takeQuoted cs with
      | none => none
      | some rest => (tsTokenizeAux fuel rest).map (fun ts => TsTok.lexeme :: ts)
    else if c = '<' then
      match takeDist cs with
      | none => none
      | some rest => (tsTokenizeAux fuel rest).map (fun ts => TsTok.dist :: ts)
    else if c = ':' then none
    else
      match wordRest (c :: cs) with
      | none => none
      | some rest => (tsTokenizeAux fuel rest).map (fun ts => TsTok.lexeme :: ts)

def tsTokenize (cs : List Char) : Option (List TsTok) := tsTokenizeAux cs.length cs

mutual
def parseP : Nat → List TsTok → Option (List TsTok)
  | 0, _ => none
  | fuel + 1, TsTok.tnot :: rest => parseP fuel rest
  | fuel + 1, TsTok.lp :: rest =>
    (match parseE fuel rest with
     | some (TsTok.rp :: rest2) => some rest2
     | _ => none)
  | _ + 1, TsTok.lexeme :: rest => some rest
  | _ + 1, _ => none

def parseE : Nat → List TsTok → Option (List TsTok)
  | 0, _ => none
  | fuel + 1, ts =>
    match parseP fuel ts with
    | none => none
    | some rest => parseTail fuel rest

def parseTail : Nat → List TsTok → Option (List TsTok)
  | 0, _ => none
  | fuel + 1, t :: rest =>
    if t = TsTok.tand ∨ t = TsTok.tor ∨ t = TsTok.dist then
      match parseP fuel rest with
      | none => none
      | some rest2 => parseTail fuel rest2
    else some (t :: rest)
  | _ + 1, [] => some []
end

/-- Whether the store's tsquery reader accepts the string: it tokenizes, is
non-empty, and parses as a full boolean expression. -/
def tsqueryValid (s : String) : Bool :=
  match tsTokenize s.data with
  | none => false
  | some ts =>
    if ts = [] then false
    else
      match parseE (2 * ts.length + 2) ts with
      | some [] => true
      | _ => false

/-- Errors the store returns for a malformed query string. -/
inductive StoreError where
  | tsqueryParse (q : String) : StoreError
deriving DecidableEq, Repr

/-- searchOptimized: degenerate cases go to findWithFilters; otherwise the
built token query is submitted to the store. A token query the store's
grammar rejects makes the whole operation reject. tsMatch abstracts the
store's search_vector match against a valid token query. -/
def searchOptimized (tsMatch : String → DbBusiness → Bool) (rows : List DbBusiness)
    (q : SearchQuery) (maxCandidates : Nat) : Except StoreError PaginatedResult :=
  match q.term with
  | none => Except.ok (findWithFilters rows q maxCandidates)
  | some t =>
    if t = "" then Except.ok (findWithFilters rows q maxCandidates)
    else
      let trimmedTerm := jsTrim t
      if trimmedTerm.length = 0 then Except.ok (findWithFilters rows q maxCandidates)
      else
        let tsQuery := buildTsQuery trimmedTerm
        if tsQuery = "" then Except.ok (findWithFilters rows q maxCandidates)
        else if tsqueryValid tsQuery then
          Except.ok (runPaginatedSearch
            (fun b => tsMatch tsQuery b && applyFilters q b) rows q maxCandidates)
        else Except.error (StoreError.tsqueryParse tsQuery)

/-- The base predicate searchOptimized paginates with, by branch. -/
def optimizedBasePred (tsMatch : String → DbBusiness → Bool) (q : SearchQuery) :
    DbBusiness → Bool :=
  match q.term with
  | none => buildSearchQueryPred none q
  | some t =>
    if t = "" then buildSearchQueryPred none q
    else
      let trimmedTerm := jsTrim t
      if trimmedTerm.length = 0 then buildSearchQueryPred none q
      else
        let tsQuery := buildTsQuery trimmedTerm
        if tsQuery = "" then buildSearchQueryPred none q
        else fun b => tsMatch tsQuery b && applyFilters q b

/-! ## HTTP error mapping (errorHandler.ts / AppError.ts) -/

/-- The facts about a JS error value the terminal error mapper can observe:
whether it is an instance of AppError, and AppError's fields. -/
structure JsError where
  isAppErrorInstance : Bool
  message : String
  statusCode : Nat
  isOperational : Bool
deriving DecidableEq, Repr

/-- The AppError constructor: an AppError instance carrying the given
message, statusCode and isOperational flag (source defaults: 500, true). -/
def AppError.make (message : String) (statusCode : Nat) (isOperational : Bool) : JsError :=
  { isAppErrorInstance := true, message := message, statusCode := statusCode,
    isOperational := isOperational }

def NotFoundError.make (resource identifier : String) : JsError :=
  AppError.make (resource ++ " not found: " ++ identifier) 404 true

def ValidationError.make (message : String) : JsError :=
  AppError.make message 400 true

def ConflictError.make (message : String) : JsError :=
  AppError.make message 409 true

structure ErrorBody where
  status : String
  message : String
deriving DecidableEq, Repr

structure HttpErrorResponse where
  statusCode : Nat
  body : ErrorBody
deriving DecidableEq, Repr

/-- errorHandler from errorHandler.ts: the branch is on instanceof AppError.
An AppError answers with its statusCode and message; anything else answers
500 with the literal internal-error message. -/
def errorHandler (err : JsError) : HttpErrorResponse :=
  if err.isAppErrorInstance then
    { statusCode := err.statusCode, body := { status := "error", message := err.message } }
  else
    { statusCode := 500, body := { status := "error", message := "Internal server error" } }

/-! ## Search controller envelope (BusinessController.ts) -/

/-- The meta object the search controller sends: the spread of the
repository result's meta, with totalTimeMs set when the request-timer stamp
is present; the object is attached only when it has at least one key. -/
def searchResponseMeta (resultMeta : Option SearchMeta) (requestStartTime : Option Nat)
    (now : Nat) : Option SearchMeta :=
  let baseQ := match resultMeta with | some m => m.queryTimeMs | none => none
  let baseT := match resultMeta with | some m => m.totalTimeMs | none => none
  let totalTimeMs := match requestStartTime with | some t0 => some (now - t0) | none => baseT
  match baseQ, totalTimeMs with
  | none, none => none
  | q, t => some { queryTimeMs := q, totalTimeMs := t }

structure SearchEnvelope where
  status : String
  data : List DbBusiness
  pagination : Pagination
  meta : Option SearchMeta
deriving DecidableEq, Repr

/-- The 200 search response body: status success, the repository result's
data and pagination, and the assembled meta. -/
def searchControllerEnvelope (result : PaginatedResult) (requestStartTime : Option Nat)
    (now : Nat) : SearchEnvelope :=
  { status := "success", data := result.data, pagination := result.pagination,
    meta := searchResponseMeta result.meta requestStartTime now }

/-! ## Sample data used by concrete counterexamples and witnesses -/

def sampleBusinessA : Business :=
  { abn := "11111111111", abnStatus := "ACT", abnStatusFrom := none,
    entityTypeCode := "PRV", entityTypeText := "Company", entityName := "ACME",
    givenName := none, familyName := none, state := none, postcode := none,
    gstStatus := none, gstFromDate := none, acn := none, recordLastUpdated := none,
    businessNames := [{ nameType := "TRD", nameText := "A" }] }

/-- The same ABN delivered again with an empty name set. -/
def sampleBusinessANoNames : Business := { sampleBusinessA with businessNames := [] }

/-- The same ABN delivered again with a different non-empty name set. -/
def sampleBusinessANewNames : Business :=
  { sampleBusinessA with businessNames := [{ nameType := "BN", nameText := "B" }] }

def sampleBusinessRow : BusinessRow := toBusinessRow sampleBusinessANoNames

/-! ## Helper lemmas -/

theorem chunksOfAux_length_le {α : Type} (n fuel : Nat) (l : List α) :
    ∀ c ∈ chunksOfAux n fuel l, c.length ≤ n := by
  induction fuel generalizing l with
  | zero => cases l <;> simp [chunksOfAux]
  | succ f ih =>
    cases l with
    | nil => simp [chunksOfAux]
    | cons x xs =>
      intro c hc
      simp only [chunksOfAux, List.mem_cons] at hc
      rcases hc with rfl | hc
      · simp [List.length_take_le]
      · exact ih _ _ hc

theorem chunksOf_length_le {α : Type} (n : Nat) (l : List α) :
    ∀ c ∈ chunksOf n l, c.length ≤ n :=
  chunksOfAux_length_le n l.length l

/-! ## Claim theorems -/

/-- C3 counterexample: the claim includes the Repository's bulkUpsert among
the capped paths, but bulkUpsert sends every non-empty input as ONE unchunked
INSERT; with 4682 rows of 14 columns it binds 65548 parameters, at least the
65535 cap. -/
theorem C3_counterexample_repo_bulkUpsert_exceeds_cap :
    repoBulkUpsertStmtParams (List.replicate 4682 sampleBusinessRow) = [65548] ∧
    ¬ (65548 < PG_MAX_BIND_PARAMS) := by
  constructor
  · have hlen : (List.replicate 4682 sampleBusinessRow).length = 4682 :=
      List.length_replicate _ _
    unfold repoBulkUpsertStmtParams
    rw [hlen]
    norm_num [BUSINESS_COLS]
  · decide

/-- C3 (amended): every INSERT of the Batch Writer's sub-batched paths binds
strictly fewer than 65535 parameters for every input; the Repository's
bulkUpsert and bulkInsertNames instead issue one unchunked statement binding
14 k (respectively 3 k) parameters, which stays under the cap only for
k at most 4681 (respectively 21844). -/
theorem C3_parameter_cap_amended :
    (∀ (rows : List BusinessRow), ∀ p ∈ writerBusinessStmtParams rows, p < PG_MAX_BIND_PARAMS) ∧
    (∀ (rows : List NameRow), ∀ p ∈ writerNameStmtParams rows, p < PG_MAX_BIND_PARAMS) ∧
    (∀ (rows : List BusinessRow), ¬ rows = [] →
        repoBulkUpsertStmtParams rows = [rows.length * BUSINESS_COLS] ∧
        (rows.length * BUSINESS_COLS < PG_MAX_BIND_PARAMS ↔ rows.length ≤ 4681)) ∧
    (∀ (rows : List NameRow), ¬ rows = [] →
        repoBulkInsertNamesStmtParams rows = [rows.length * 3] ∧
        (rows.length * 3 < PG_MAX_BIND_PARAMS ↔ rows.length ≤ 21844)) := by
  refine ⟨?_, ?_, ?_, ?_⟩
  · intro rows p hp
    simp only [writerBusinessStmtParams, List.mem_map] at hp
    obtain ⟨c, hc, rfl⟩ := hp
    have h1 : c.length ≤ MAX_BUSINESS_ROWS_PER_INSERT := chunksOf_length_le _ _ c hc
    have h2 : MAX_BUSINESS_ROWS_PER_INSERT = 1000 := by decide
    have h3 : c.length * BUSINESS_COLS ≤ 1000 * BUSINESS_COLS :=
      Nat.mul_le_mul_right _ (h2 ▸ h1)
    calc c.length * BUSINESS_COLS ≤ 1000 * BUSINESS_COLS := h3
      _ < PG_MAX_BIND_PARAMS := by decide
  · intro rows p hp
    simp only [writerNameStmtParams, List.mem_map] at hp
    obtain ⟨c, hc, rfl⟩ := hp
    have h1 : c.length ≤ MAX_NAME_ROWS_PER_INSERT := chunksOf_length_le _ _ c hc
    have h2 : MAX_NAME_ROWS_PER_INSERT = 21844 := by decide
    have h3 : c.length * 3 ≤ 21844 * 3 := Nat.mul_le_mul_right _ (h2 ▸ h1)
    calc c.length * 3 ≤ 21844 * 3 := h3
      _ < PG_MAX_BIND_PARAMS := by decide
  · intro rows hne
    have hlen : ¬ rows.length = 0 := by simpa using hne
    constructor
    · simp [repoBulkUpsertStmtParams, hlen]
    · have : PG_MAX_BIND_PARAMS = 65535 := by decide
      rw [this, BUSINESS_COLS]
      omega
  · intro rows hne
    have hlen : ¬ rows.length = 0 := by simpa using hne
    constructor
    · simp [repoBulkInsertNamesStmtParams, hlen]
    · have : PG_MAX_BIND_PARAMS = 65535 := by decide
      rw [this]
      omega

/-- C3 witness: concrete instantiations of the amended statement. -/
theorem C3_parameter_cap_amended_witness :
    (∀ p ∈ writerBusinessStmtParams (List.replicate 4682 sampleBusinessRow),
        p < PG_MAX_BIND_PARAMS) ∧
    (¬ (List.replicate 4682 sampleBusinessRow) = [] →
        repoBulkUpsertStmtParams (List.replicate 4682 sampleBusinessRow)
            = [(List.replicate 4682 sampleBusinessRow).length * BUSINESS_COLS] ∧
        ((List.replicate 4682 sampleBusinessRow).length * BUSINESS_COLS < PG_MAX_BIND_PARAMS
            ↔ (List.replicate 4682 sampleBusinessRow).length ≤ 4681)) :=
  ⟨C3_parameter_cap_amended.1 _, (C3_parameter_cap_amended.2.2.1 _)⟩

/-- The claim's notion of a well-formed YYYYMMDD calendar date: exactly 8
characters whose year/month/day slices are all digits with the month in 1..12
and the day within that month (leap years included). -/
def wellFormedYYYYMMDD (v : String) : Bool :=
  decide (v.length = 8) &&
    (match jsDateFromParts (strSlice v 0 4) (strSlice v 4 6) (strSlice v 6 8) with
     | JsDate.valid _ _ _ => true
     | JsDate.invalid => false)

/-- C5 counterexample: 20241301 (month 13) is not a well-formed calendar
date, yet parseAbrDate returns the JS Invalid Date value, not null — the
guard only checks emptiness, length 8 and the sentinel. -/
theorem C5_counterexample_malformed_eight_chars :
    wellFormedYYYYMMDD ("20241301") = false ∧
    parseAbrDate (some ("20241301")) = some JsDate.invalid ∧
    ¬ parseAbrDate (some ("20241301")) = none := by
  refine ⟨rfl, rfl, ?_⟩
  decide

/-- C5 (amended): the sentinel 19000101 parses to null, and so does every
string whose length is not 8 (and absent input); but a length-8 non-sentinel
string always yields a date value — a valid date exactly when the string is a
well-formed YYYYMMDD calendar date, and the JS Invalid Date (not null)
otherwise. -/
theorem C5_date_normalization_amended (v : String) :
    (parseAbrDate none = none) ∧
    (parseAbrDate (some ("19000101")) = none) ∧
    (parseAbrDate (some v) = none ↔ (¬ v.length = 8 ∨ v = "19000101")) ∧
    (v.length = 8 → ¬ v = "19000101" →
      ((wellFormedYYYYMMDD v = true →
          ∃ y m d, parseAbrDate (some v) = some (JsDate.valid y m d)) ∧
       (wellFormedYYYYMMDD v = false → parseAbrDate (some v) = some JsDate.invalid))) := by
  have hred : ∀ w : String, parseAbrDate (some w)
      = if w = "" ∨ ¬ w.length = 8 ∨ w = "19000101" then none
        else some (jsDateFromParts (strSlice w 0 4) (strSlice w 4 6) (strSlice w 6 8)) :=
    fun _ => rfl
  refine ⟨rfl, rfl, ?_, ?_⟩
  · rw [hred]
    split_ifs with h
    · constructor
      · intro _
        rcases h with he | h2 | h3
        · subst he
          left
          decide
        · exact Or.inl h2
        · exact Or.inr h3
      · intro _
        rfl
    · push_neg at h
      simp [h.2.1, h.2.2]
  · intro hl hs
    have hguard : ¬ (v = "" ∨ ¬ v.length = 8 ∨ v = "19000101") := by
      push_neg
      refine ⟨?_, by simp [hl], hs⟩
      intro he
      rw [he] at hl
      simp at hl
    constructor
    · intro hwf
      unfold wellFormedYYYYMMDD at hwf
      rw [Bool.and_eq_true] at hwf
      rw [hred, if_neg hguard]
      rcases hj : jsDateFromParts (strSlice v 0 4) (strSlice v 4 6) (strSlice v 6 8) with
        _ | ⟨y, m, d⟩
      · rw [hj] at hwf
        simp at hwf
      · exact ⟨y, m, d, rfl⟩
    · intro hwf
      unfold wellFormedYYYYMMDD at hwf
      rw [hred, if_neg hguard]
      rcases hj : jsDateFromParts (strSlice v 0 4) (strSlice v 4 6) (strSlice v 6 8) with
        _ | ⟨y, m, d⟩
      · rfl
      · rw [hj] at hwf
        simp [hl] at hwf

/-- C5 witness: the amended statement at the counterexample's input and at a
well-formed date. -/
theorem C5_date_normalization_amended_witness :
    (("20000701" : String).length = 8 ∧ ¬ ("20000701" : String) = "19000101") ∧
    (parseAbrDate (some ("20000701")) = none
        ↔ (¬ ("20000701" : String).length = 8 ∨ ("20000701" : String) = "19000101")) :=
  ⟨⟨by decide, by decide⟩, (C5_date_normalization_amended ("20000701")).2.2.1⟩

/-- C7 counterexample: an AppError constructed with isOperational = false
(the constructor's third argument) still has its statusCode and message sent
to the client, because errorHandler branches on instanceof AppError, never
reading the operational flag; the claim would require 500 with the literal
internal-error message here. -/
theorem C7_counterexample_nonoperational_appError :
    (AppError.make ("maintenance") 503 false).isOperational = false ∧
    errorHandler (AppError.make ("maintenance") 503 false)
      = { statusCode := 503, body := { status := "error", message := "maintenance" } } ∧
    ¬ errorHandler (AppError.make ("maintenance") 503 false)
      = { statusCode := 500, body := { status := "error", message := "Internal server error" } } := by
  refine ⟨rfl, rfl, ?_⟩
  decide

/-- C7 (amended): the terminal error mapper discriminates by instanceof
AppError, not by the isOperational flag: an AppError instance answers with
its own statusCode and message and anything else answers 500 with the literal
internal-error body. Whenever the flag agrees with instanceof (which holds
for every error this codebase constructs, since the flag defaults to true),
the claim's flag-based description is recovered. -/
theorem C7_operational_flag_mapping_amended (err : JsError) :
    (err.isAppErrorInstance = true →
        errorHandler err
          = { statusCode := err.statusCode,
              body := { status := "error", message := err.message } }) ∧
    (err.isAppErrorInstance = false →
        errorHandler err
          = { statusCode := 500,
              body := { status := "error", message := "Internal server error" } }) ∧
    (err.isOperational = err.isAppErrorInstance →
      ((err.isOperational = true →
          errorHandler err
            = { statusCode := err.statusCode,
                body := { status := "error", message := err.message } }) ∧
       (err.isOperational = false →
          errorHandler err
            = { statusCode := 500,
                body := { status := "error", message := "Internal server error" } }))) := by
  rcases hb : err.isAppErrorInstance with _ | _
  · refine ⟨?_, ?_, ?_⟩
    · intro ht
      cases ht
    · intro _
      simp [errorHandler, hb]
    · intro hflag
      refine ⟨?_, ?_⟩
      · intro hop
        rw [hflag] at hop
        cases hop
      · intro _
        simp [errorHandler, hb]
  · refine ⟨?_, ?_, ?_⟩
    · intro _
      simp [errorHandler, hb]
    · intro hf
      cases hf
    · intro hflag
      refine ⟨?_, ?_⟩
      · intro _
        simp [errorHandler, hb]
      · intro hop
        rw [hflag] at hop
        cases hop

/-- C7 witness: the amended statement at the NotFoundError of scenario S4. -/
theorem C7_operational_flag_mapping_amended_witness :
    (NotFoundError.make ("Business") ("00000000000")).isAppErrorInstance = true ∧
    errorHandler (NotFoundError.make ("Business") ("00000000000"))
      = { statusCode := 404,
          body := { status := "error", message := "Business not found: 00000000000" } } :=
  ⟨rfl, (C7_operational_flag_mapping_amended (NotFoundError.make ("Business") ("00000000000"))).1 rfl⟩

/-- C8: throughout any sequence of awaited add() calls starting from the
empty buffer, the Batch Writer's buffer never holds more than batchSize
records: between adds it holds strictly fewer than batchSize, and the
transient peak inside an add (after the push, before a triggered flush
drains) is at most batchSize. -/
theorem C8_backpressure_bound (batchSize : Nat) (h : 1 ≤ batchSize) (events : List Business) :
    (bufferAfter batchSize events).length < batchSize ∧
    ∀ e : Business, (bufferAfter batchSize events ++ [e]).length ≤ batchSize := by
  have key : ∀ (l : List Business) (buf : List Business), buf.length < batchSize →
      (l.foldl (addStep batchSize) buf).length < batchSize := by
    intro l
    induction l with
    | nil => intro buf hb; simpa using hb
    | cons e rest ih =>
      intro buf hb
      have hstep : (addStep batchSize buf e).length < batchSize := by
        simp only [addStep]
        split_ifs with hge
        · simp only [List.length_nil]
          omega
        · exact Nat.lt_of_not_le hge
      simpa using ih _ hstep
  have hbase : (bufferAfter batchSize events).length < batchSize := key events [] (by simpa using h)
  refine ⟨hbase, fun e => ?_⟩
  have : (bufferAfter batchSize events ++ [e]).length = (bufferAfter batchSize events).length + 1 := by
    simp
  omega

/-- C8 witness: three records through a writer with batchSize 2. -/
theorem C8_backpressure_bound_witness :
    (1 ≤ 2) ∧
    ((bufferAfter 2 [sampleBusinessA, sampleBusinessANewNames, sampleBusinessA]).length < 2 ∧
      ∀ e : Business,
        (bufferAfter 2 [sampleBusinessA, sampleBusinessANewNames, sampleBusinessA] ++ [e]).length ≤ 2) :=
  ⟨by decide, C8_backpressure_bound 2 (by decide) [sampleBusinessA, sampleBusinessANewNames, sampleBusinessA]⟩

/-- Concrete search query used by the C9 evaluation. -/
def sampleSearchQuery : SearchQuery :=
  { term := some ("vantage"), state := none, postcode := none, entityType := none,
    abnStatus := none, page := 1, limit := 20 }

/-- C9: the repository's search paths never attach meta (runPaginatedSearch
returns data and pagination only), so the HTTP search envelope's meta carries
only totalTimeMs and never the claimed queryTimeMs — evaluated here both in
general and at a concrete request (arrival 100, dispatch 112). -/
theorem C9_search_meta_missing_queryTimeMs :
    (∀ (pred : DbBusiness → Bool) (rows : List DbBusiness) (q : SearchQuery) (mc : Nat),
        (runPaginatedSearch pred rows q mc).meta = none) ∧
    (searchControllerEnvelope (searchNative [] sampleSearchQuery 5000) (some 100) 112).meta
        = some { queryTimeMs := none, totalTimeMs := some 12 } :=
  ⟨fun _ _ _ _ => rfl, rfl⟩

/-- Concrete search query whose term is a lone tsquery operator character. -/
def operatorTermQuery : SearchQuery :=
  { term := some ("&"), state := none, postcode := none, entityType := none,
    abnStatus := none, page := 1, limit := 20 }

/-- C10: buildTsQuery embeds the whitespace-split tokens verbatim, so the
term consisting of the single character AND-operator becomes the token query
whose first token is that bare operator; the store's tsquery grammar rejects
it, and searchOptimized rejects the whole operation with the store error
carrying the invalid query, for every corpus. -/
theorem C10_tsquery_no_escaping_rejects :
    buildTsQuery ("&") = "&:*" ∧
    tsqueryValid ("&:*") = false ∧
    ∀ (tsMatch : String → DbBusiness → Bool) (rows : List DbBusiness),
      searchOptimized tsMatch rows operatorTermQuery 5000
        = Except.error (StoreError.tsqueryParse ("&:*")) :=
  ⟨rfl, rfl, fun _ _ => rfl⟩

/-- A space-join of strings is empty exactly for the empty list, provided no
entry is the empty string. -/
theorem joinSep_space_eq_empty_iff (l : List String) (h : ∀ s ∈ l, ¬ s = "") :
    (joinSep (" ") l = "" ↔ l = []) := by
  cases l with
  | nil => simp [joinSep]
  | cons x xs =>
    cases xs with
    | nil =>
      simp only [joinSep]
      constructor
      · intro hx
        exact absurd hx (h x (List.mem_cons_self _ _))
      · intro hc
        cases hc
    | cons y ys =>
      simp only [joinSep]
      constructor
      · intro hx
        have hlen : (x ++ " " ++ joinSep (" ") (y :: ys)).length = 0 := by
          rw [hx]
          rfl
        have hsp : (" " : String).length = 1 := rfl
        rw [String.length_append, String.length_append, hsp] at hlen
        omega
      · intro hc
        cases hc

/-- What the claim says givenName is for an IND record: the given names
joined by single spaces, or null when there are none. -/
def givenNameSpec (raw : RawAbrRecord) : Option String :=
  if raw.givenNames = [] then none else some (joinSep (" ") raw.givenNames)

/-- What the claim says entityName is for an IND record: givenName and
familyName joined by a space with empty (or absent) parts omitted. -/
def entityNameIndSpec (raw : RawAbrRecord) : String :=
  joinSep (" ") (truthyStrings [givenNameSpec raw, raw.familyName])

/-- What the claim says entityName is for a non-IND record: the main-entity
name, or the literal Unknown Entity when it is absent. -/
def entityNameNonIndSpec (raw : RawAbrRecord) : String :=
  match raw.mainEntityName with
  | some s => s
  | none => "Unknown Entity"

/-- C4: the adapter's normalize agrees with the claim on both branches. The
hypotheses restrict to records as the parser produces them: the parser pushes
only non-empty given names, and an empty main-entity-name string carries no
name (so the claim's absent case is read as none here). -/
theorem C4_adapter_normalization (raw : RawAbrRecord)
    (hg : ∀ g ∈ raw.givenNames, ¬ g = "")
    (hm : ¬ raw.mainEntityName = some "") :
    (raw.entityTypeInd = "IND" →
      (XmlDataSourceAdapter.normalize raw).givenName = givenNameSpec raw ∧
      (XmlDataSourceAdapter.normalize raw).familyName = raw.familyName ∧
      (XmlDataSourceAdapter.normalize raw).entityName = entityNameIndSpec raw) ∧
    (¬ raw.entityTypeInd = "IND" →
      (XmlDataSourceAdapter.normalize raw).givenName = none ∧
      (XmlDataSourceAdapter.normalize raw).familyName = none ∧
      (XmlDataSourceAdapter.normalize raw).entityName = entityNameNonIndSpec raw) := by
  have hjoin := joinSep_space_eq_empty_iff raw.givenNames hg
  constructor
  · intro hind
    have hgn : (XmlDataSourceAdapter.normalize raw).givenName = givenNameSpec raw := by
      simp only [XmlDataSourceAdapter.normalize, givenNameSpec, hind, if_pos]
      by_cases hc : raw.givenNames = []
      · simp [hc, joinSep]
      · have hne : ¬ joinSep (" ") raw.givenNames = "" := fun he => hc (hjoin.mp he)
        simp [hc, hne]
    refine ⟨hgn, ?_, ?_⟩
    · simp [XmlDataSourceAdapter.normalize, hind]
    · have hen : (XmlDataSourceAdapter.normalize raw).entityName
          = joinSep (" ")
              (truthyStrings [(XmlDataSourceAdapter.normalize raw).givenName, raw.familyName]) := by
        simp [XmlDataSourceAdapter.normalize, hind]
      rw [hen, hgn]
      rfl
  · intro hind
    refine ⟨?_, ?_, ?_⟩
    · simp [XmlDataSourceAdapter.normalize, hind]
    · simp [XmlDataSourceAdapter.normalize, hind]
    · rcases hme : raw.mainEntityName with _ | s
      · simp [XmlDataSourceAdapter.normalize, entityNameNonIndSpec, hind, hme]
      · have hs : ¬ s = "" := by
          intro he
          rw [he] at hme
          exact hm hme
        simp [XmlDataSourceAdapter.normalize, entityNameNonIndSpec, hind, hme, hs]

/-- C4 witness: the S1-style individual record MARY JANE DOE. -/
def sampleRawIndividual : RawAbrRecord :=
  { recordLastUpdatedDate := "19000101", abn := "12345678901", abnStatus := "ACT",
    abnStatusFromDate := "19000101", entityTypeInd := "IND", entityTypeText := "Individual",
    mainEntityName := none, givenNames := ["MARY", "JANE"], familyName := some ("DOE"),
    state := none, postcode := none, gstStatus := none, gstFromDate := some ("19000101"),
    acn := none, otherNames := [] }

theorem C4_adapter_normalization_witness :
    ((∀ g ∈ sampleRawIndividual.givenNames, ¬ g = "") ∧
      ¬ sampleRawIndividual.mainEntityName = some "") ∧
    (sampleRawIndividual.entityTypeInd = "IND" →
      (XmlDataSourceAdapter.normalize sampleRawIndividual).givenName
          = givenNameSpec sampleRawIndividual ∧
      (XmlDataSourceAdapter.normalize sampleRawIndividual).familyName
          = sampleRawIndividual.familyName ∧
      (XmlDataSourceAdapter.normalize sampleRawIndividual).entityName
          = entityNameIndSpec sampleRawIndividual) :=
  ⟨⟨by decide, by decide⟩,
    (C4_adapter_normalization sampleRawIndividual (by decide) (by decide)).1⟩

/-- The backoff delays slept strictly between attempts a, ..., k: one entry
retryDelayMs * 2 ^ (j - 1) for each failed attempt j in [a, k). -/
def delaysFrom (rd a k : Nat) : List Nat :=
  (List.range (k - a)).map (fun i => rd * 2 ^ (a + i - 1))

theorem delaysFrom_self (rd a : Nat) : delaysFrom rd a a = [] := by
  simp [delaysFrom]

theorem delaysFrom_cons (rd a k : Nat) (h : a < k) :
    delaysFrom rd a k = rd * 2 ^ (a - 1) :: delaysFrom rd (a + 1) k := by
  unfold delaysFrom
  have hk : k - a = (k - (a + 1)) + 1 := by omega
  rw [hk, List.range_succ_eq_map]
  simp only [List.map_cons, List.map_map, Nat.add_zero]
  refine congrArg (fun t => rd * 2 ^ (a - 1) :: t) ?_
  refine List.map_congr_left ?_
  intro i _
  simp only [Function.comp_apply]
  have : a + (i + 1) - 1 = a + 1 + i - 1 := by omega
  rw [this]

theorem flushLoop_ok (outcome : Nat → FlushOutcome) (rd : Nat) :
    ∀ (r a k : Nat) (delays : List Nat),
      a ≤ k → k < a + r →
      (∀ j, a ≤ j → j < k →
        ∃ e, outcome j = FlushOutcome.failure e ∧ isRetryableConnectionError e = true) →
      outcome k = FlushOutcome.success →
      flushLoop outcome rd a r delays = FlushResult.ok k (delays ++ delaysFrom rd a k) := by
  intro r
  induction r with
  | zero =>
    intro a k delays h1 h2 _ _
    omega
  | succ r ih =>
    intro a k delays h1 h2 hfail hk
    rcases Nat.eq_or_lt_of_le h1 with heq | hlt
    · subst heq
      simp only [flushLoop, hk, delaysFrom_self, List.append_nil]
    · obtain ⟨e, he, hre⟩ := hfail a (Nat.le_refl a) hlt
      have hr : ¬ r = 0 := by omega
      have hcond : ¬ (isRetryableConnectionError e = false ∨ r = 0) := by
        rw [hre]
        simp [hr]
      simp only [flushLoop, he, if_neg hcond]
      rw [ih (a + 1) k (delays ++ [rd * 2 ^ (a - 1)]) hlt (by omega)
        (fun j hj1 hj2 => hfail j (by omega) hj2) hk]
      rw [delaysFrom_cons rd a k hlt]
      simp

theorem flushLoop_thrown (outcome : Nat → FlushOutcome) (rd : Nat) :
    ∀ (r a k : Nat) (delays : List Nat) (e : JsErrorInfo),
      a ≤ k → k < a + r →
      (∀ j, a ≤ j → j < k →
        ∃ e2, outcome j = FlushOutcome.failure e2 ∧ isRetryableConnectionError e2 = true) →
      outcome k = FlushOutcome.failure e →
      (isRetryableConnectionError e = false ∨ k = a + r - 1) →
      flushLoop outcome rd a r delays = FlushResult.thrown e k (delays ++ delaysFrom rd a k) := by
  intro r
  induction r with
  | zero =>
    intro a k delays e h1 h2 _ _ _
    omega
  | succ r ih =>
    intro a k delays e h1 h2 hfail hk hlast
    rcases Nat.eq_or_lt_of_le h1 with heq | hlt
    · subst heq
      have hcond : isRetryableConnectionError e = false ∨ r = 0 := by
        rcases hlast with hl | hl
        · exact Or.inl hl
        · right
          omega
      simp only [flushLoop, hk, if_pos hcond, delaysFrom_self, List.append_nil]
    · obtain ⟨e2, he2, hre2⟩ := hfail a (Nat.le_refl a) hlt
      have hr : ¬ r = 0 := by omega
      have hcond : ¬ (isRetryableConnectionError e2 = false ∨ r = 0) := by
        rw [hre2]
        simp [hr]
      simp only [flushLoop, he2, if_neg hcond]
      rw [ih (a + 1) k (delays ++ [rd * 2 ^ (a - 1)]) e hlt (by omega)
        (fun j hj1 hj2 => hfail j (by omega) hj2) hk (by rcases hlast with hl | hl; exact Or.inl hl; right; omega)]
      rw [delaysFrom_cons rd a k hlt]
      simp

/-- C6: runOneFlush retries the whole batch only on transient connection
errors, with exponential backoff retryDelayMs * 2 ^ (attempt - 1) before each
re-run, within at most retryAttempts attempts: success at attempt k commits
after k runs; a non-transient failure propagates at the attempt it occurs
with no further re-run; transient failures at every attempt propagate the
last error after retryAttempts runs. The claim's enumerated OS codes are all
transient; so are its connection-terminated/closed/reset and pool-timeout
message conditions. -/
theorem C6_flush_retry_policy (outcome : Nat → FlushOutcome) (ra rd : Nat) (hra : 1 ≤ ra) :
    (∀ k, 1 ≤ k → k ≤ ra →
      (∀ j, 1 ≤ j → j < k →
        ∃ e, outcome j = FlushOutcome.failure e ∧ isRetryableConnectionError e = true) →
      outcome k = FlushOutcome.success →
      runOneFlush outcome ra rd = FlushResult.ok k (delaysFrom rd 1 k)) ∧
    (∀ k e, 1 ≤ k → k ≤ ra →
      (∀ j, 1 ≤ j → j < k →
        ∃ e2, outcome j = FlushOutcome.failure e2 ∧ isRetryableConnectionError e2 = true) →
      outcome k = FlushOutcome.failure e → isRetryableConnectionError e = false →
      runOneFlush outcome ra rd = FlushResult.thrown e k (delaysFrom rd 1 k)) ∧
    (∀ e, (∀ j, 1 ≤ j → j ≤ ra →
        ∃ e2, outcome j = FlushOutcome.failure e2 ∧ isRetryableConnectionError e2 = true) →
      outcome ra = FlushOutcome.failure e →
      runOneFlush outcome ra rd = FlushResult.thrown e ra (delaysFrom rd 1 ra)) ∧
    (∀ (m : String) (c : Option String),
      (c = some ("ECONNRESET") ∨ c = some ("EPIPE") ∨ c = some ("ETIMEDOUT")
        ∨ c = some ("ECONNREFUSED") ∨ c = some ("57P01")) →
      isRetryableConnectionError { code := c, message := m } = true) ∧
    (isRetryableConnectionError { code := none, message := "Connection terminated unexpectedly" } = true ∧
      isRetryableConnectionError { code := none, message := "connection closed" } = true ∧
      isRetryableConnectionError { code := none, message := "Connection reset by peer" } = true ∧
      isRetryableConnectionError
        { code := none, message := "Knex: Timeout acquiring a connection. The pool is probably full." } = true) := by
  refine ⟨?_, ?_, ?_, ?_, by refine ⟨rfl, rfl, rfl, rfl⟩⟩
  · intro k hk1 hk2 hfail hk
    exact flushLoop_ok outcome rd ra 1 k [] hk1 (by omega) hfail hk
  · intro k e hk1 hk2 hfail hk hnr
    exact flushLoop_thrown outcome rd ra 1 k [] e hk1 (by omega) hfail hk (Or.inl hnr)
  · intro e hfail hk
    exact flushLoop_thrown outcome rd ra 1 ra [] e hra (by omega)
      (fun j hj1 hj2 => hfail j hj1 (by omega)) hk (Or.inr (by omega))
  · intro m c hc
    rcases hc with h | h | h | h | h <;> subst h <;> simp [isRetryableConnectionError]

/-- Outcome trace used by the C6 witness: attempt 1 fails with ECONNRESET,
attempt 2 succeeds. -/
def sampleOutcomeTrace : Nat → FlushOutcome := fun a =>
  if a = 1 then FlushOutcome.failure { code := some ("ECONNRESET"), message := "read ECONNRESET" }
  else FlushOutcome.success

theorem C6_flush_retry_policy_witness :
    (1 ≤ 3) ∧
    runOneFlush sampleOutcomeTrace 3 1000 = FlushResult.ok 2 (delaysFrom 1000 1 2) := by
  refine ⟨by decide, ?_⟩
  refine (C6_flush_retry_policy sampleOutcomeTrace 3 1000 (by decide)).1 2 (by decide) (by decide)
    ?_ rfl
  intro j hj1 hj2
  have hj : j = 1 := by omega
  subst hj
  exact ⟨{ code := some ("ECONNRESET"), message := "read ECONNRESET" }, rfl, rfl⟩

theorem length_sortByEntityName (l : List DbBusiness) :
    (sortByEntityName l).length = l.length :=
  (List.perm_insertionSort entityNameLe l).length_eq

/-- The pagination protocol the claim describes, for a result produced over
the given base predicate: total is min of the true match count and the cap,
totalPages is the ceiling of total over limit, the page is the slice of the
entityName-ascending ordering at offset (page-1)*limit, and it holds at most
limit rows. -/
def paginationCorrect (res : PaginatedResult) (pred : DbBusiness → Bool)
    (rows : List DbBusiness) (q : SearchQuery) (mc : Nat) : Prop :=
  res.pagination.total = min ((rows.filter pred).length) mc ∧
  res.pagination.totalPages = jsCeilDiv res.pagination.total q.limit ∧
  res.data = ((sortByEntityName (rows.filter pred)).drop ((q.page - 1) * q.limit)).take q.limit ∧
  res.data.length ≤ q.limit ∧
  res.pagination.page = q.page ∧
  res.pagination.limit = q.limit

theorem runPaginatedSearch_correct (pred : DbBusiness → Bool) (rows : List DbBusiness)
    (q : SearchQuery) (mc : Nat) :
    paginationCorrect (runPaginatedSearch pred rows q mc) pred rows q mc := by
  refine ⟨?_, rfl, rfl, ?_, rfl, rfl⟩
  · show ((sortByEntityName (rows.filter pred)).take mc).length
        = min ((rows.filter pred).length) mc
    rw [List.length_take, length_sortByEntityName, Nat.min_comm]
  · show (((sortByEntityName (rows.filter pred)).drop ((q.page - 1) * q.limit)).take q.limit).length
        ≤ q.limit
    exact List.length_take_le _ _

/-- The base predicate searchNative paginates with, by branch. -/
def nativeBasePred (q : SearchQuery) : DbBusiness → Bool :=
  match q.term with
  | none => buildSearchQueryPred none q
  | some t =>
    if t = "" then buildSearchQueryPred none q
    else
      let trimmedTerm := jsTrim t
      if trimmedTerm.length = 0 then buildSearchQueryPred none q
      else buildSearchQueryPred (some trimmedTerm) q

theorem searchNative_eq_run (rows : List DbBusiness) (q : SearchQuery) (mc : Nat) :
    searchNative rows q mc = runPaginatedSearch (nativeBasePred q) rows q mc := by
  unfold searchNative nativeBasePred findWithFilters
  rcases q.term with _ | t
  · rfl
  · by_cases h1 : t = ""
    · simp [h1]
    · by_cases h2 : (jsTrim t).length = 0
      · simp [h1, h2]
      · simp [h1, h2]

theorem searchOptimized_ok_eq_run (tsMatch : String → DbBusiness → Bool)
    (rows : List DbBusiness) (q : SearchQuery) (mc : Nat) (res : PaginatedResult) :
    searchOptimized tsMatch rows q mc = Except.ok res →
    res = runPaginatedSearch (optimizedBasePred tsMatch q) rows q mc := by
  unfold searchOptimized optimizedBasePred findWithFilters
  rcases q.term with _ | t
  · intro h
    injection h with h'
    exact h'.symm
  · by_cases h1 : t = ""
    · simp only [h1, if_pos]
      intro h
      injection h with h'
      exact h'.symm
    · by_cases h2 : (jsTrim t).length = 0
      · simp only [h1, h2, if_neg, if_pos, ite_false, ite_true]
        intro h
        injection h with h'
        exact h'.symm
      · by_cases h3 : buildTsQuery (jsTrim t) = ""
        · simp only [h1, h2, h3, ite_false, ite_true]
          intro h
          injection h with h'
          exact h'.symm
        · by_cases h4 : tsqueryValid (buildTsQuery (jsTrim t)) = true
          · simp only [h1, h2, h3, h4, ite_false, ite_true]
            intro h
            injection h with h'
            exact h'.symm
          · simp only [h1, h2, h3, h4, ite_false, ite_true]
            intro h
            cases h

/-- C2: all three search operations report total = min(s, maxCandidates) over
their base predicate, totalPages = ceil(total / limit), and a data page that
is the limit-sized slice of the entityName-ascending ordering at offset
(page-1)*limit (so at most limit rows); for searchOptimized this holds for
every result it returns. jsCeilDiv is the Nat ceiling division (the final
conjunct is its Galois characterization, so totalPages is genuinely the
ceiling of total / limit). -/
theorem C2_candidate_cap_pagination (rows : List DbBusiness) (q : SearchQuery) (mc : Nat)
    (_hp : 1 ≤ q.page) (hl : 1 ≤ q.limit) :
    paginationCorrect (searchNative rows q mc) (nativeBasePred q) rows q mc ∧
    paginationCorrect (findWithFilters rows q mc) (buildSearchQueryPred none q) rows q mc ∧
    (∀ (tsMatch : String → DbBusiness → Bool) (res : PaginatedResult),
      searchOptimized tsMatch rows q mc = Except.ok res →
      paginationCorrect res (optimizedBasePred tsMatch q) rows q mc) ∧
    (∀ t n : Nat, jsCeilDiv t q.limit ≤ n ↔ t ≤ q.limit * n) := by
  refine ⟨?_, ?_, ?_, ?_⟩
  · rw [searchNative_eq_run]
    exact runPaginatedSearch_correct _ _ _ _
  · exact runPaginatedSearch_correct _ _ _ _
  · intro tsMatch res h
    rw [searchOptimized_ok_eq_run tsMatch rows q mc res h]
    exact runPaginatedSearch_correct _ _ _ _
  · intro t n
    have h0 : 0 < q.limit := hl
    have : jsCeilDiv t q.limit = t ⌈/⌉ q.limit := rfl
    rw [this]
    exact ceilDiv_le_iff_le_mul h0

/-- Concrete one-row corpus for the C2 witness. -/
def sampleDbRows : List DbBusiness := [{ id := 1, row := toBusinessRow sampleBusinessA }]

theorem C2_candidate_cap_pagination_witness :
    (1 ≤ sampleSearchQuery.page ∧ 1 ≤ sampleSearchQuery.limit) ∧
    paginationCorrect (searchNative sampleDbRows sampleSearchQuery 5000)
      (nativeBasePred sampleSearchQuery) sampleDbRows sampleSearchQuery 5000 :=
  ⟨⟨by decide, by decide⟩,
    (C2_candidate_cap_pagination sampleDbRows sampleSearchQuery 5000 (by decide) (by decide)).1⟩

/-- The business_names rows the flush inserts for a resolved id. -/
def nameRowsFor (i : Nat) (l : List BusinessName) : List NameRow :=
  l.map (fun bn => { business_id := i, name_type := bn.nameType, name_text := bn.nameText })

theorem dedupFirstAux_of_seen (a : String) :
    ∀ (l : List String) (seen : List String),
      (∀ x ∈ l, x = a) → seen.contains a = true → dedupFirstAux l seen = [] := by
  intro l
  induction l with
  | nil => intro seen _ _; rfl
  | cons x xs ih =>
    intro seen hall hseen
    have hx : x = a := hall x (by simp)
    subst hx
    simp only [dedupFirstAux, hseen, if_true]
    exact ih seen (fun y hy => hall y (by simp [hy])) hseen

theorem dedupFirst_const (a : String) (l : List String) (hne : ¬ l = [])
    (hall : ∀ x ∈ l, x = a) : dedupFirst l = [a] := by
  cases l with
  | nil => exact absurd rfl hne
  | cons x xs =>
    have hx : x = a := hall x (by simp)
    subst hx
    have h0 : dedupFirstAux (x :: xs) ([] : List String) = x :: dedupFirstAux xs [x] := by
      simp [dedupFirstAux]
    unfold dedupFirst
    rw [h0, dedupFirstAux_of_seen x xs [x] (fun y hy => hall y (by simp [hy])) (by simp)]

theorem filterMap_eq_map_of {α β : Type} (g : α → Option β) (h : α → β) :
    ∀ (l : List α), (∀ x ∈ l, g x = some (h x)) → l.filterMap g = l.map h := by
  intro l
  induction l with
  | nil => intro _; rfl
  | cons x xs ih =>
    intro hall
    rw [List.filterMap_cons, hall x (by simp), List.map_cons,
      ih (fun y hy => hall y (by simp [hy]))]

theorem filter_id_nameRowsFor (i : Nat) (l : List BusinessName) :
    (nameRowsFor i l).filter (fun n => decide (n.business_id = i)) = nameRowsFor i l := by
  rw [List.filter_eq_self]
  intro n hn
  rcases List.mem_map.1 hn with ⟨bn, _, rfl⟩
  simp

theorem filter_delete_nameRowsFor (i : Nat) (l : List BusinessName) :
    (nameRowsFor i l).filter (fun n => ! [i].contains n.business_id) = [] := by
  rw [List.filter_eq_nil_iff]
  intro n hn
  rcases List.mem_map.1 hn with ⟨bn, _, rfl⟩
  simp

/-- One single-record batch flushed into the empty store: the business gets
id 1 and exactly its child names land. -/
theorem doFlush_single_from_empty (e : Business) :
    doFlushWithTrx emptyDb [e]
      = { businesses := [{ id := 1, row := toBusinessRow e }],
          names := nameRowsFor 1 e.businessNames,
          nextId := 2 } := by
  unfold doFlushWithTrx
  have hupsert : ([e].map toBusinessRow).foldl upsertRow emptyDb
      = { businesses := [{ id := 1, row := toBusinessRow e }], names := [], nextId := 2 } := by
    simp [upsertRow, emptyDb]
  have hcollect : collectNames [e]
      = e.businessNames.map (fun bn =>
          ({ abn := e.abn, nameType := bn.nameType, nameText := bn.nameText } : AbnName)) := by
    simp [collectNames]
  rw [hupsert, hcollect]
  by_cases h : e.businessNames = []
  · simp [h, nameRowsFor]
  · have hne : ¬ e.businessNames.map (fun bn =>
        ({ abn := e.abn, nameType := bn.nameType, nameText := bn.nameText } : AbnName)) = [] := by
      simp [h]
    rw [if_neg hne]
    have habns : dedupFirst ((e.businessNames.map (fun bn =>
        ({ abn := e.abn, nameType := bn.nameType, nameText := bn.nameText } : AbnName))).map
          (fun n => n.abn)) = [e.abn] := by
      refine dedupFirst_const e.abn _ (by simp [h]) ?_
      intro x hx
      rcases List.mem_map.1 hx with ⟨n, hn, rfl⟩
      rcases List.mem_map.1 hn with ⟨bn, _, rfl⟩
      rfl
    rw [habns]
    have habn1 : (toBusinessRow e).abn = e.abn := rfl
    simp only [List.filter_cons, List.filter_nil, habn1, List.mem_cons, List.mem_singleton]
    norm_num
    unfold nameRowsFor
    refine filterMap_eq_map_of _ _ _ ?_
    intro bn _
    simp [Function.comp, habn1]

/-- Re-flushing the same ABN as a single-record batch replaces the business
columns in place (same id) and, when the new record carries any names, its
names replace the old ones; when it carries none, the old names survive. -/
theorem doFlush_single_replace (e1 e2 : Business) (habn : e2.abn = e1.abn) :
    doFlushWithTrx (doFlushWithTrx emptyDb [e1]) [e2]
      = { businesses := [{ id := 1, row := toBusinessRow e2 }],
          names := if e2.businessNames = [] then nameRowsFor 1 e1.businessNames
                   else nameRowsFor 1 e2.businessNames,
          nextId := 2 } := by
  rw [doFlush_single_from_empty e1]
  unfold doFlushWithTrx
  have habn1 : (toBusinessRow e1).abn = e1.abn := rfl
  have habn2 : (toBusinessRow e2).abn = e2.abn := rfl
  have hupsert : ([e2].map toBusinessRow).foldl upsertRow
      { businesses := [{ id := 1, row := toBusinessRow e1 }],
        names := nameRowsFor 1 e1.businessNames, nextId := 2 }
      = { businesses := [{ id := 1, row := toBusinessRow e2 }],
          names := nameRowsFor 1 e1.businessNames, nextId := 2 } := by
    simp [upsertRow, mergeOnConflict, habn1, habn2, habn]
  rw [hupsert]
  have hcollect : collectNames [e2]
      = e2.businessNames.map (fun bn =>
          ({ abn := e2.abn, nameType := bn.nameType, nameText := bn.nameText } : AbnName)) := by
    simp [collectNames]
  rw [hcollect]
  by_cases h2 : e2.businessNames = []
  · simp [h2]
  · have hne : ¬ e2.businessNames.map (fun bn =>
        ({ abn := e2.abn, nameType := bn.nameType, nameText := bn.nameText } : AbnName)) = [] := by
      simp [h2]
    rw [if_neg hne]
    have habns : dedupFirst ((e2.businessNames.map (fun bn =>
        ({ abn := e2.abn, nameType := bn.nameType, nameText := bn.nameText } : AbnName))).map
          (fun n => n.abn)) = [e2.abn] := by
      refine dedupFirst_const e2.abn _ (by simp [h2]) ?_
      intro x hx
      rcases List.mem_map.1 hx with ⟨n, hn, rfl⟩
      rcases List.mem_map.1 hn with ⟨bn, _, rfl⟩
      rfl
    rw [habns]
    simp only [List.filter_cons, List.filter_nil, habn2, List.mem_cons, List.mem_singleton]
    norm_num
    rw [if_neg h2]
    have hdel : (nameRowsFor 1 e1.businessNames).filter
        (fun n => !decide (n.business_id = 1)) = [] := by
      rw [List.filter_eq_nil_iff]
      intro n hn
      rcases List.mem_map.1 hn with ⟨bn, _, rfl⟩
      simp
    rw [hdel, List.nil_append]
    unfold nameRowsFor
    refine filterMap_eq_map_of _ _ _ ?_
    intro bn _
    simp [Function.comp, habn2]

/-- C1 counterexample: ingest ABN 11111111111 with the one-name set TRD A,
then re-ingest the same ABN with an empty name set; after the second flush
the attached names are still TRD A rather than the latest (empty) set,
because the delete step only covers ABNs that carry at least one name in the
new batch. -/
theorem C1_counterexample_empty_second_run :
    namesAttachedTo (doFlushWithTrx (doFlushWithTrx emptyDb [sampleBusinessA])
        [sampleBusinessANoNames]) ("11111111111")
      = [{ business_id := 1, name_type := "TRD", name_text := "A" }] ∧
    ¬ namesAttachedTo (doFlushWithTrx (doFlushWithTrx emptyDb [sampleBusinessA])
        [sampleBusinessANoNames]) ("11111111111")
      = ([] : List NameRow) := by
  refine ⟨rfl, ?_⟩
  decide

/-- C1 (amended): for two successive single-record ingest runs carrying the
same ABN, when the later run delivers a non-empty name set N2 the attached
business_names afterwards are exactly N2 — replace semantics, no residual
from the first run; but when N2 is empty the first run's names survive
unchanged. -/
theorem C1_name_replacement_amended (e1 e2 : Business) (habn : e2.abn = e1.abn) :
    (¬ e2.businessNames = [] →
      namesAttachedTo (doFlushWithTrx (doFlushWithTrx emptyDb [e1]) [e2]) e1.abn
        = nameRowsFor 1 e2.businessNames) ∧
    (e2.businessNames = [] →
      namesAttachedTo (doFlushWithTrx (doFlushWithTrx emptyDb [e1]) [e2]) e1.abn
        = nameRowsFor 1 e1.businessNames) := by
  rw [doFlush_single_replace e1 e2 habn]
  have habn2 : (toBusinessRow e2).abn = e2.abn := rfl
  have hfind : ([{ id := 1, row := toBusinessRow e2 }] : List DbBusiness).find?
      (fun b => decide (b.row.abn = e1.abn)) = some { id := 1, row := toBusinessRow e2 } := by
    simp [List.find?, habn2, habn]
  constructor
  · intro h2
    unfold namesAttachedTo
    rw [hfind]
    show ((if e2.businessNames = [] then nameRowsFor 1 e1.businessNames
          else nameRowsFor 1 e2.businessNames)).filter (fun n => decide (n.business_id = 1))
        = nameRowsFor 1 e2.businessNames
    rw [if_neg h2, filter_id_nameRowsFor]
  · intro h2
    unfold namesAttachedTo
    rw [hfind]
    show ((if e2.businessNames = [] then nameRowsFor 1 e1.businessNames
          else nameRowsFor 1 e2.businessNames)).filter (fun n => decide (n.business_id = 1))
        = nameRowsFor 1 e1.businessNames
    rw [if_pos h2, filter_id_nameRowsFor]

/-- C1 witness: the amended statement at a concrete replacement run. -/
theorem C1_name_replacement_amended_witness :
    (sampleBusinessANewNames.abn = sampleBusinessA.abn ∧
      ¬ sampleBusinessANewNames.businessNames = []) ∧
    namesAttachedTo (doFlushWithTrx (doFlushWithTrx emptyDb [sampleBusinessA])
        [sampleBusinessANewNames]) sampleBusinessA.abn
      = nameRowsFor 1 sampleBusinessANewNames.businessNames :=
  ⟨⟨rfl, by decide⟩,
    (C1_name_replacement_amended sampleBusinessA sampleBusinessANewNames rfl).1 (by decide)⟩
